import Mathlib

/-!
Verification of the Copier project-scaffolding engine (lucuma/Voodoo snapshot).

This file shallowly embeds the parts of the source relevant to the frozen
claims:

* `src/copier/main.py`   — `Worker.run_update`, `Worker._render_path`,
  `Worker._render_allowed`, `Worker._render_file`, `Worker._render_folder`,
  `Worker._answers_to_remember`, `Worker.all_exclusions`
* `src/copier/template.py` — `filter_config`, `Template.migration_tasks`,
  `Template.secret_questions`
* `src/copier/config/user_data.py` — `cast_answer_type`, `parse_yaml_string`,
  `render_value`, `render_choices`, `query_user_data`

External collaborators (the Jinja sandbox, the pathspec gitwildmatch matcher,
the `packaging.version` parser, yaml/json parsers, the interactive prompt and
the filesystem) are modeled at the boundary: either as oracle function fields
of the embedded state, or — for `packaging.version` — as an executable model
restricted to release-segment versions (`N(.N)*`, optionally prefixed by `v`),
on which the real parser agrees; any other string is treated as
`InvalidVersion`.

Paths are modeled as lists of components (`List String`); the path `"."`
(destination root / copy root) is the empty list.
-/

namespace Voodoo

/-! ## PEP 440 versions (model of `packaging.version`, release segments only) -/

/-- Split a character list at the dots, keeping empty groups. -/
def splitDots : List Char → List (List Char)
  | [] => [[]]
  | c :: rest =>
    match splitDots rest with
    | [] => [[c]]
    | g :: gs => if c = '.' then [] :: g :: gs else (c :: g) :: gs

/-- Decimal value of a digit run. -/
def segToNat (cs : List Char) : Nat :=
  cs.foldl (fun acc c => acc * 10 + (c.toNat - 48)) 0

/-- One dot-separated release segment: a non-empty run of digits. -/
def parseSegment (cs : List Char) : Option Nat :=
  if cs ≠ [] && cs.all Char.isDigit then some (segToNat cs) else none

/-- Model of `packaging.version.Version(s)`, restricted to pure release
versions `N(.N)*` with an optional leading `v`.  Returns `none` where the
real parser raises `InvalidVersion` (and on the PEP-440 forms with
pre/post/dev/local segments, which are outside the model). -/
def parseVersion (s : String) : Option (List Nat) :=
  let cs := match s.toList with
            | 'v' :: rest => rest
            | cs => cs
  (splitDots cs).mapM parseSegment

/-- PEP 440 strict order on release segments: compare componentwise,
padding the shorter list with zeros (`1.0 == 1.0.0`). -/
def relLt : List Nat → List Nat → Bool
  | [], bs => bs.any (fun b => b ≠ 0)
  | _ :: _, [] => false
  | a :: as, b :: bs => a < b || (a == b && relLt as bs)

/-! ## C1: `Worker.run_update` — the downgrade check

`run_update` (src/copier/main.py:490-526) performs a sequence of
precondition checks, each raising `UserMessageError`, before any filesystem
effect.  The effects that follow the checks are modeled as an opaque list of
steps: raising means none of them happens, in particular no write to the
real destination tree. -/

/-- `self.subproject.template` as reconstructed from the answers file:
`url` is `_src_path`, `ref` is `_commit` (either may be absent). -/
structure OldTemplateRef where
  url : String
  ref : Option String
deriving DecidableEq, Repr

/-- The state `run_update` consults before acting. -/
structure UpdateInput where
  /-- `self.subproject.vcs` -/
  subprojectVcs : Option String
  /-- `self.subproject.is_dirty()` -/
  isDirty : Bool
  /-- `self.subproject.template` (absent when the answers file has no `_src_path`). -/
  oldTemplate : Option OldTemplateRef
  /-- `self.template.commit` (absent when the new template is not git-tracked). -/
  newCommit : Option String
deriving DecidableEq, Repr

/-- The `UserMessageError`s `run_update` can raise before rendering. -/
inductive UpdateError where
  | updateNotSupported
  | dirtyDestination
  | missingOldRef
  | templateNotTracked
  | downgrade
deriving DecidableEq, Repr

/-- The effectful stages of `run_update` that follow the precondition checks,
in source order.  `copyToDestination`, `applyDiff` and the migration stages
are the ones that write to the real destination tree. -/
inductive UpdateStep where
  | scratchCopy
  | extractDiff
  | migrationsBefore
  | copyToDestination
  | applyDiff
  | migrationsAfter
deriving DecidableEq, Repr

/-- Embedding of `Worker.run_update` (src/copier/main.py:490-526) up to the
point where effects begin.  `Except.error` models raising
`UserMessageError`; `Except.ok steps` models proceeding to the listed
effectful stages.  The downgrade flag mirrors the source: it is set only
when both version strings parse (`InvalidVersion` merely prints a warning
and leaves `downgrading = False`). -/
def run_update (inp : UpdateInput) : Except UpdateError (List UpdateStep) :=
  if inp.subprojectVcs ≠ some "git" then .error .updateNotSupported
  else if inp.isDirty then .error .dirtyDestination
  else
    match inp.oldTemplate with
    | none => .error .missingOldRef
    | some old =>
      match old.ref with
      | none => .error .missingOldRef
      | some oldRef =>
        match inp.newCommit with
        | none => .error .templateNotTracked
        | some newCommit =>
          let downgrading :=
            match parseVersion oldRef, parseVersion newCommit with
            | some vOld, some vNew => relLt vNew vOld
            | _, _ => false
          if downgrading then .error .downgrade
          else
            .ok [.scratchCopy, .extractDiff, .migrationsBefore,
                 .copyToDestination, .applyDiff, .migrationsAfter]

/-- **C1.** If the old template reference and the new template commit both
parse as PEP-440 versions and the old one is strictly greater, `run_update`
raises a user-facing error (`UserMessageError`, here `UpdateError.downgrade`)
— and since the error is raised by the precondition block, none of the
effectful stages (in particular no write to the real destination tree) is
reached. -/
theorem downgrade_refusal (inp : UpdateInput) (old : OldTemplateRef)
    (oldRef newCommit : String) (vOld vNew : List Nat)
    (hvcs : inp.subprojectVcs = some "git")
    (hclean : inp.isDirty = false)
    (hold : inp.oldTemplate = some old)
    (href : old.ref = some oldRef)
    (hnew : inp.newCommit = some newCommit)
    (hpOld : parseVersion oldRef = some vOld)
    (hpNew : parseVersion newCommit = some vNew)
    (hgt : relLt vNew vOld = true) :
    run_update inp = Except.error UpdateError.downgrade := by
  simp only [run_update, hvcs, hclean, hold, href, hnew, hpOld, hpNew, hgt]
  simp

/-- Witness for C1 at a concrete input: updating from `2.0.0` down to
`1.0.0` is refused. -/
theorem downgrade_refusal_witness :
    run_update ⟨some "git", false, some ⟨"https://tpl.git", some "2.0.0"⟩,
                some "1.0.0"⟩ = Except.error UpdateError.downgrade :=
  downgrade_refusal _ ⟨"https://tpl.git", some "2.0.0"⟩ "2.0.0" "1.0.0"
    [2, 0, 0] [1, 0, 0] rfl rfl rfl rfl rfl (by decide) (by decide) (by decide)

/-! ## C2: `Template.migration_tasks` (src/copier/template.py:199-224) -/

/-- Python `dict(d, k=v)`: copy `d`, then set `k` to `v` (overriding in
place when the key is present, appending otherwise). -/
def dictInsert {α : Type} (d : List (String × α)) (k : String) (v : α) :
    List (String × α) :=
  if d.any (fun p => p.1 == k) then
    d.map (fun p => if p.1 == k then (k, v) else p)
  else d ++ [(k, v)]

/-- `packaging.version.parse`, as used by `migration_tasks`.  Total like the
original (which falls back to `LegacyVersion`); the fallback value is only a
placeholder, and the claims about migrations are stated for inputs where
`parseVersion` succeeds. -/
def pep440 (s : String) : List Nat :=
  (parseVersion s).getD []

/-- One entry of the template's `_migrations` list: a `version` string (the
source applies `str()` to it; we model it as already a string) and a mapping
from stage name (`"before"` / `"after"`) to the stage's task commands. -/
structure Migration where
  version : String
  stages : List (String × List String)
deriving DecidableEq, Repr

/-- `migration.get(stage, [])`. -/
def migrationGet (mg : Migration) (stage : String) : List String :=
  (mg.stages.lookup stage).getD []

/-- A task handed to `Worker._execute_tasks`: the command plus its
`extra_env` mapping. -/
structure TaskSpec where
  task : String
  extra_env : List (String × String)
deriving DecidableEq, Repr

/-- The `extra_env` value before the loop:
`{"STAGE": stage, "VERSION_FROM": from_, "VERSION_TO": to}`. -/
def migEnvBase (stage from_ to_ : String) : List (String × String) :=
  [("STAGE", stage), ("VERSION_FROM", from_), ("VERSION_TO", to_)]

/-- The `for migration in self._raw_config.get("_migrations", [])` loop.
`env` is the current value of the (rebound) `extra_env` variable. -/
def migrationLoop (parsedFrom parsedTo : List Nat) (stage : String) :
    List Migration → List (String × String) → List TaskSpec
  | [], _ => []
  | mg :: rest, env =>
    if !relLt parsedTo (pep440 mg.version) && relLt parsedFrom (pep440 mg.version) then
      let env' := dictInsert env "VERSION_CURRENT" mg.version
      (migrationGet mg stage).map (fun t => ⟨t, env'⟩)
        ++ migrationLoop parsedFrom parsedTo stage rest env'
    else migrationLoop parsedFrom parsedTo stage rest env

/-- Embedding of `Template.migration_tasks(stage, from_, to)`; `migrations`
is the template's `_migrations` list.  The guard mirrors
`if not from_ or not to: return result`, and the loop keeps a migration
iff `parsed_to >= parse(version) > parsed_from`. -/
def migration_tasks (migrations : List Migration) (stage from_ to_ : String) :
    List TaskSpec :=
  if from_ = "" ∨ to_ = "" then []
  else migrationLoop (pep440 from_) (pep440 to_) stage migrations
        (migEnvBase stage from_ to_)

theorem dictInsert_vc_base (s f t v : String) :
    dictInsert (migEnvBase s f t) "VERSION_CURRENT" v
      = migEnvBase s f t ++ [("VERSION_CURRENT", v)] := by
  simp [dictInsert, migEnvBase]

theorem dictInsert_vc_full (s f t w v : String) :
    dictInsert (migEnvBase s f t ++ [("VERSION_CURRENT", w)]) "VERSION_CURRENT" v
      = migEnvBase s f t ++ [("VERSION_CURRENT", v)] := by
  simp [dictInsert, migEnvBase]

theorem migrationLoop_spec (pf pt : List Nat) (stage f t : String)
    (migs : List Migration) (tailEnv : List (String × String))
    (htail : tailEnv = [] ∨ ∃ w, tailEnv = [("VERSION_CURRENT", w)]) :
    migrationLoop pf pt stage migs (migEnvBase stage f t ++ tailEnv)
      = (migs.filter fun mg =>
            !relLt pt (pep440 mg.version) && relLt pf (pep440 mg.version)).flatMap
          (fun mg => (migrationGet mg stage).map fun task =>
            ⟨task, migEnvBase stage f t ++ [("VERSION_CURRENT", mg.version)]⟩) := by
  induction migs generalizing tailEnv with
  | nil => simp [migrationLoop]
  | cons mg rest ih =>
    have henv : dictInsert (migEnvBase stage f t ++ tailEnv) "VERSION_CURRENT" mg.version
        = migEnvBase stage f t ++ [("VERSION_CURRENT", mg.version)] := by
      rcases htail with h | ⟨w, h⟩
      · subst h
        simpa using dictInsert_vc_base stage f t mg.version
      · subst h
        exact dictInsert_vc_full stage f t w mg.version
    by_cases hc : (!relLt pt (pep440 mg.version) && relLt pf (pep440 mg.version)) = true
    · rw [migrationLoop, if_pos hc]
      simp only [henv]
      rw [ih [("VERSION_CURRENT", mg.version)] (Or.inr ⟨mg.version, rfl⟩)]
      simp [List.filter_cons, hc]
    · have hc' : (!relLt pt (pep440 mg.version) && relLt pf (pep440 mg.version)) = false := by
        simpa using hc
      rw [migrationLoop, if_neg hc]
      rw [ih tailEnv htail]
      simp [List.filter_cons, hc']

/-- **C2.** For non-empty `from_`/`to`, `migration_tasks` returns exactly, in
order, the `stage` tasks of those `_migrations` entries whose version `v`
satisfies `parsed(from_) < parsed(v) ≤ parsed(to)` (PEP 440), each paired
with the environment `STAGE = stage`, `VERSION_FROM = from_`,
`VERSION_TO = to`, `VERSION_CURRENT = v`; in particular a migration's tasks
are included iff its version lies in the half-open interval. -/
theorem migration_selection (migrations : List Migration)
    (stage from_ to_ : String) (vFrom vTo : List Nat)
    (hf : from_ ≠ "") (ht : to_ ≠ "")
    (hpf : parseVersion from_ = some vFrom)
    (hpt : parseVersion to_ = some vTo) :
    migration_tasks migrations stage from_ to_
      = (migrations.filter fun mg =>
            !relLt vTo (pep440 mg.version) && relLt vFrom (pep440 mg.version)).flatMap
          (fun mg => (migrationGet mg stage).map fun task =>
            ⟨task, [("STAGE", stage), ("VERSION_FROM", from_), ("VERSION_TO", to_),
                    ("VERSION_CURRENT", mg.version)]⟩) := by
  have hvf : pep440 from_ = vFrom := by simp [pep440, hpf]
  have hvt : pep440 to_ = vTo := by simp [pep440, hpt]
  unfold migration_tasks
  rw [if_neg (by simp [hf, ht])]
  have := migrationLoop_spec (pep440 from_) (pep440 to_) stage from_ to_ migrations []
    (Or.inl rfl)
  simpa [migEnvBase, hvf, hvt] using this

/-- Witness for C2: one migration inside the interval and one outside. -/
theorem migration_selection_witness :
    migration_tasks
        [⟨"1.5", [("before", ["touch inside"])]⟩,
         ⟨"3.0", [("before", ["touch outside"])]⟩]
        "before" "1.0" "2.0"
      = [⟨"touch inside",
          [("STAGE", "before"), ("VERSION_FROM", "1.0"), ("VERSION_TO", "2.0"),
           ("VERSION_CURRENT", "1.5")]⟩] := by
  rw [migration_selection _ _ _ _ [1, 0] [2, 0] (by decide) (by decide)
    (by decide) (by decide)]
  decide

/-! ## The render pipeline (`Worker._render_*`, src/copier/main.py:235-431)

Used by claims C3, C4, C5, C6 and C10.  Destination-relative paths are
lists of components, with `[]` standing for `Path(".")`.  The worker state
keeps the configuration fields the pipeline consults plus oracle functions
for its external collaborators (the Jinja engine, template-side `exists()`
checks, and the interactive overwrite prompt).  The pathspec gitwildmatch
engine (`Worker._path_matcher`, including its NFD normalization of
patterns) is passed separately as an abstract `Matcher`: patterns in,
path-predicate out.  We model the default `subdirectory = ""` case, where
the copy root coincides with the template root. -/

/-- The pathspec boundary: `_path_matcher(patterns)` as a path predicate. -/
def Matcher : Type :=
  List String → List String → Bool

/-- An entry of the destination filesystem. -/
inductive Entry where
  | file (content : String)
  | dir
deriving DecidableEq, Repr

/-- The destination tree under `subproject.local_abspath`: `none` means the
path does not exist. -/
def Fs : Type :=
  List String → Option Entry

/-- The slice of `Worker` state the render pipeline reads. -/
structure Worker where
  /-- `template.templates_suffix` (default `".tmpl"`). -/
  templatesSuffix : String
  /-- `template.exclude` patterns. -/
  templateExclude : List String
  /-- Caller-provided `exclude` patterns (`Worker.exclude`). -/
  exclude : List String
  /-- Caller-provided `skip_if_exists` patterns. -/
  skip_if_exists : List String
  /-- `template.skip_if_exists` patterns. -/
  templateSkipIfExists : List String
  force : Bool
  pretend : Bool
  /-- `Worker._render_string`: the sandboxed Jinja engine applied to a
  string with the current render context (external). -/
  renderStr : String → String
  /-- Jinja rendering of a template file's content, keyed by its
  copy-root-relative path (`jinja_env.get_template(...).render(...)`,
  external). -/
  templateRender : List String → String
  /-- `(template.local_abspath / p).exists()` (external filesystem). -/
  templateExists : List String → Bool
  /-- The `ask(f" Overwrite {dst_relpath}?", default=True)` prompt
  (external, interactive). -/
  askOverwrite : List String → Bool

/-- `Worker.all_exclusions` (src/copier/main.py:330-332):
template exclusions first, then the caller's. -/
def all_exclusions (w : Worker) : List String :=
  w.templateExclude ++ w.exclude

/-- `Worker.match_exclude`: the pathspec matcher built from
`all_exclusions`. -/
def match_exclude (m : Matcher) (w : Worker) (p : List String) : Bool :=
  m (all_exclusions w) p

/-- `Worker.match_skip`: the matcher built from the caller's
`skip_if_exists` followed by the template's, each pattern first rendered
as a template string. -/
def match_skip (m : Matcher) (w : Worker) (p : List String) : Bool :=
  m ((w.skip_if_exists ++ w.templateSkipIfExists).map w.renderStr) p

/-- The observable actions and reports of the pipeline, in emission order.
`create`/`identical`/`conflict`/`skip`/`force` are the `printf` reports
(quietness only suppresses their display); `write` and `mkdir` are the
filesystem effects. -/
inductive Event where
  | create (p : List String)
  | identical (p : List String)
  | conflict (p : List String)
  | skip (p : List String)
  | force (p : List String)
  | write (p : List String) (content : String)
  | mkdir (p : List String)
deriving DecidableEq, Repr

/-- Does the event write a file or directory at destination path `p`? -/
def writesAt (ev : Event) (p : List String) : Bool :=
  match ev with
  | .write q _ => q == p
  | .mkdir q => q == p
  | _ => false

/-- Python `str.endswith`, via the character lists (kernel-reducible,
unlike `String.endsWith`). -/
def strEndsWith (s suffix : String) : Bool :=
  suffix.toList.isSuffixOf s.toList

/-- `Path(relpath).name`: the final component, `""` for the root. -/
def lastName (parts : List String) : String :=
  (parts.getLast?).getD ""

/-- The path checked by `template.local_abspath / f"{relpath}{suffix}"`:
appending the suffix to the string form of the path extends its final
component (for the root, `str(Path(".")) = "."`, so the checked path is
the single component `"." + suffix`).  We assume the suffix contains no
path separator, as in the default `".tmpl"`. -/
def siblingPath (parts : List String) (suffix : String) : List String :=
  match parts.reverse with
  | [] => ["." ++ suffix]
  | last :: revInit => revInit.reverse ++ [last ++ suffix]

/-- Python `s[:-n]`: for `n = 0` this is `s[:0] = ""`, otherwise the first
`length - n` characters (empty when `n ≥ length`). -/
def pyTruncate (s : String) (n : Nat) : String :=
  if n = 0 then "" else String.mk (s.toList.take (s.toList.length - n))

/-- `rendered_parts[-1] = rendered_parts[-1][:-len(suffix)]`, with the
`IndexError` on an empty list suppressed (`with suppress(IndexError)`). -/
def truncateLast (parts : List String) (n : Nat) : List String :=
  match parts.reverse with
  | [] => []
  | last :: revInit => revInit.reverse ++ [pyTruncate last n]

/-- The `for part in relpath.parts` loop of `_render_path`: render each
component in order, returning `None` as soon as one renders empty. -/
def renderParts (w : Worker) : List String → Option (List String)
  | [] => some []
  | part :: rest =>
    let r := w.renderStr part
    if r = "" then none
    else
      match renderParts w rest with
      | none => none
      | some rs => some (r :: rs)

/-- Embedding of `Worker._render_path` (src/copier/main.py:404-431). -/
def render_path (w : Worker) (relpath : List String) : Option (List String) :=
  let is_template := strEndsWith (lastName relpath) w.templatesSuffix
  if w.templateExists (siblingPath relpath w.templatesSuffix) then none
  else
    match renderParts w relpath with
    | none => none
    | some rendered =>
      let result :=
        if is_template then truncateLast rendered w.templatesSuffix.length
        else rendered
      if is_template = false ∧
         w.templateExists (siblingPath result w.templatesSuffix) = true then none
      else some result

/-- Embedding of `Worker._solve_render_conflict` (src/copier/main.py:202-233):
report `conflict`; skip-matched paths are skipped, `force` overwrites,
otherwise the user is asked (default yes). -/
def solve_render_conflict (m : Matcher) (w : Worker) (dst : List String) :
    Bool × List Event :=
  if match_skip m w dst then (false, [Event.conflict dst, Event.skip dst])
  else if w.force then (true, [Event.conflict dst, Event.force dst])
  else (w.askOverwrite dst, [Event.conflict dst])

/-- Embedding of `Worker._render_allowed` (src/copier/main.py:235-281).
The exclusion check is skipped at the copy root `[]`.  `fs dst = none`
models `FileNotFoundError`; an existing directory models
`IsADirectoryError` on `read_bytes` (the Windows `PermissionError` HACK
branch is platform-specific and outside the model); an existing file's
bytes are compared with `expected`. -/
def render_allowed (m : Matcher) (w : Worker) (fs : Fs) (dst : List String)
    (isDir : Bool) (expected : String) : Bool × List Event :=
  if dst ≠ [] ∧ match_exclude m w dst = true then (false, [])
  else
    match fs dst with
    | none => (true, [Event.create dst])
    | some Entry.dir =>
      if isDir then (true, [Event.identical dst])
      else solve_render_conflict m w dst
    | some (Entry.file prev) =>
      if prev = expected then (true, [Event.identical dst])
      else solve_render_conflict m w dst

/-- The content `_render_file` is about to write: Jinja-rendered when the
source name ends with the templates suffix, the raw bytes otherwise. -/
def rendered_content (w : Worker) (relParts : List String) (srcContent : String) :
    String :=
  if strEndsWith (lastName relParts) w.templatesSuffix then w.templateRender relParts
  else srcContent

/-- `dst_abspath.write_bytes(new_content)` on the destination tree. -/
def writeFs (fs : Fs) (dst : List String) (content : String) : Fs :=
  fun q => if q = dst then some (Entry.file content) else fs q

/-- `dst_abspath.mkdir(exist_ok=True)`.  (If the destination holds a file,
the real call raises `FileExistsError`; the model leaves the file in
place — no claim depends on that corner.) -/
def mkdirFs (fs : Fs) (dst : List String) : Fs :=
  fun q =>
    if q = dst then
      match fs dst with
      | some (Entry.file c) => some (Entry.file c)
      | _ => some Entry.dir
    else fs q

/-- Embedding of `Worker._render_file` (src/copier/main.py:361-378):
render the destination path, compute the new content, consult
`_render_allowed`, and — unless disallowed or in pretend mode — write the
bytes. -/
def render_file (m : Matcher) (w : Worker) (fs : Fs) (relParts : List String)
    (srcContent : String) : List Event × Fs :=
  match render_path w relParts with
  | none => ([], fs)
  | some dst =>
    let newContent := rendered_content w relParts srcContent
    let ra := render_allowed m w fs dst false newContent
    if ra.1 = false then (ra.2, fs)
    else if w.pretend then (ra.2, fs)
    else (ra.2 ++ [Event.write dst newContent], writeFs fs dst newContent)

/-- A source entry of the template's copy root (the walked tree). -/
inductive SrcEntry where
  | file (content : String)
  | dir (children : List (String × SrcEntry))
deriving Repr

mutual

/-- Embedding of the walk rooted at `Worker._render_folder`
(src/copier/main.py:380-402) for a single source entry at copy-root
relative path `relParts`: directories render their path, consult
`_render_allowed`, `mkdir` unless pretending, and recurse; files delegate
to `_render_file`. -/
def render_entry (m : Matcher) (w : Worker) (fs : Fs) (relParts : List String) :
    SrcEntry → List Event × Fs
  | .file content => render_file m w fs relParts content
  | .dir children =>
    match render_path w relParts with
    | none => ([], fs)
    | some dst =>
      let ra := render_allowed m w fs dst true ""
      if ra.1 = false then (ra.2, fs)
      else
        let evs1 := if w.pretend then [] else [Event.mkdir dst]
        let fs1 := if w.pretend then fs else mkdirFs fs dst
        let r2 := render_entries m w fs1 relParts children
        (ra.2 ++ evs1 ++ r2.1, r2.2)

/-- The `for file in src_abspath.iterdir()` loop of `_render_folder`, in
directory-entry order. -/
def render_entries (m : Matcher) (w : Worker) (fs : Fs) (relParts : List String) :
    List (String × SrcEntry) → List Event × Fs
  | [] => ([], fs)
  | (name, e) :: rest =>
    let r1 := render_entry m w fs (relParts ++ [name]) e
    let r2 := render_entries m w r1.2 relParts rest
    (r1.1 ++ r2.1, r2.2)

end

/-! ## Shared concrete instances for witnesses -/

/-- A matcher whose patterns never match (e.g. no exclude patterns apply). -/
def noMatcher : Matcher := fun _ _ => false

/-- A matcher that matches a path iff its final component is literally
listed among the patterns. -/
def lastNameMatcher : Matcher :=
  fun pats p => pats.contains (lastName p)

/-- An empty destination tree. -/
def emptyFs : Fs := fun _ => none

/-- A plain worker: default suffix, no patterns, identity Jinja engine. -/
def plainWorker : Worker where
  templatesSuffix := ".tmpl"
  templateExclude := []
  exclude := []
  skip_if_exists := []
  templateSkipIfExists := []
  force := false
  pretend := false
  renderStr := id
  templateRender := fun _ => ""
  templateExists := fun _ => false
  askOverwrite := fun _ => true

/-! ## C5: empty rendered components prune the path -/

theorem renderParts_none_of_mem (w : Worker) (parts : List String) (part : String)
    (hmem : part ∈ parts) (hempty : w.renderStr part = "") :
    renderParts w parts = none := by
  induction parts with
  | nil => cases hmem
  | cons hd tl ih =>
    rcases List.mem_cons.mp hmem with h | h
    · subst h
      simp [renderParts, hempty]
    · by_cases hh : w.renderStr hd = ""
      · simp [renderParts, hh]
      · simp [renderParts, hh, ih h]

theorem render_path_none_of_empty_part (w : Worker) (parts : List String)
    (part : String) (hmem : part ∈ parts) (hempty : w.renderStr part = "") :
    render_path w parts = none := by
  unfold render_path
  by_cases hsib : w.templateExists (siblingPath parts w.templatesSuffix) = true
  · simp [hsib]
  · simp [hsib, renderParts_none_of_mem w parts part hmem hempty]

/-- **C5.** If any component of a template-relative path renders to the
empty string, `_render_path` suppresses the whole path (returns `None`),
and consequently the walk emits no event and leaves the destination tree
untouched for that path — whether it is a file or a directory subtree. -/
theorem empty_path_pruning (m : Matcher) (w : Worker) (fs : Fs)
    (relParts : List String) (part : String) (e : SrcEntry)
    (hmem : part ∈ relParts) (hempty : w.renderStr part = "") :
    render_path w relParts = none
    ∧ render_entry m w fs relParts e = ([], fs) := by
  have hp := render_path_none_of_empty_part w relParts part hmem hempty
  refine ⟨hp, ?_⟩
  cases e with
  | file content => simp [render_entry, render_file, hp]
  | dir children => simp [render_entry, hp]

/-- Worker whose engine renders the component `"{{empty}}"` to `""`. -/
def emptyRenderWorker : Worker :=
  { plainWorker with
      renderStr := fun s => if s = "{{empty}}" then "" else s }

/-- Witness for C5: a file under a component that renders empty is pruned. -/
theorem empty_path_pruning_witness :
    render_path emptyRenderWorker ["{{empty}}", "file.txt"] = none
    ∧ render_entry noMatcher emptyRenderWorker emptyFs ["{{empty}}", "file.txt"]
        (SrcEntry.file "hi") = ([], emptyFs) :=
  empty_path_pruning noMatcher emptyRenderWorker emptyFs
    ["{{empty}}", "file.txt"] "{{empty}}" (SrcEntry.file "hi")
    (by decide) (by decide)

/-! ## C6: templated-sibling suppression -/

/-- **C6.** (i) A source path whose templated sibling
(`f"{relpath}{suffix}"`) exists in the template is suppressed outright.
(ii) For a non-templated source path that rendered successfully, the same
check is repeated on the rendered path: if `<rendered><suffix>` exists in
the template, the path is suppressed as well.  (A source path that itself
ends with the suffix is materialized from the suffixed file — that is
exactly the "only the rendered form of the suffixed sibling" half — so the
post-render check applies to non-templated sources.) -/
theorem templated_sibling_suppression (w : Worker)
    (relParts rendered : List String) :
    (w.templateExists (siblingPath relParts w.templatesSuffix) = true →
      render_path w relParts = none)
    ∧ (strEndsWith (lastName relParts) w.templatesSuffix = false →
       renderParts w relParts = some rendered →
       w.templateExists (siblingPath rendered w.templatesSuffix) = true →
       render_path w relParts = none) := by
  constructor
  · intro h
    unfold render_path
    simp [h]
  · intro hnt hr hsib
    unfold render_path
    by_cases h1 : w.templateExists (siblingPath relParts w.templatesSuffix) = true
    · simp [h1]
    · simp [h1, hr, hnt, hsib]

/-- Worker for the C6 witness: the template contains `a.tmpl`, and the
engine renders the component `"b"` to `"a"`. -/
def sibWorker : Worker :=
  { plainWorker with
      renderStr := fun s => if s = "b" then "a" else s,
      templateExists := fun p => p == ["a.tmpl"] }

/-- Witness for C6: `a` is suppressed because `a.tmpl` exists, and `b`
(which renders to `a`) is suppressed by the post-render check. -/
theorem templated_sibling_suppression_witness :
    render_path sibWorker ["a"] = none ∧ render_path sibWorker ["b"] = none :=
  ⟨(templated_sibling_suppression sibWorker ["a"] []).1 (by decide),
   (templated_sibling_suppression sibWorker ["b"] ["a"]).2
     (by decide) (by decide) (by decide)⟩

/-! ## C10: the suffix strip is a blind length truncation -/

/-- **C10.** When the source name ends with `templates_suffix`, and the path
is not suppressed by the sibling check and renders successfully,
`_render_path` removes exactly `len(templates_suffix)` trailing characters
from the rendered final component (`rendered_parts[-1][:-len(suffix)]`) —
unconditionally, even if rendering changed the component so that it no
longer ends with the suffix. -/
theorem blind_suffix_truncation (w : Worker) (relParts rendered : List String)
    (hsuffix : strEndsWith (lastName relParts) w.templatesSuffix = true)
    (hsib : w.templateExists (siblingPath relParts w.templatesSuffix) = false)
    (hrender : renderParts w relParts = some rendered) :
    render_path w relParts
      = some (truncateLast rendered w.templatesSuffix.length) := by
  unfold render_path
  simp [hsib, hrender, hsuffix]

/-- Worker for the C10 witness: the engine renders the source component
`x.tmpl` to `abc.txt`, which does *not* end with `.tmpl`. -/
def blindWorker : Worker :=
  { plainWorker with
      renderStr := fun s => if s = "x.tmpl" then "abc.txt" else s }

/-- Witness for C10: `x.tmpl` renders to `abc.txt`; the last 5 characters
(`len(".tmpl")`) are cut blindly, producing `ab` — not a conditional strip
of a matching suffix. -/
theorem blind_suffix_truncation_witness :
    render_path blindWorker ["x.tmpl"] = some ["ab"] := by
  have h := blind_suffix_truncation blindWorker ["x.tmpl"] ["abc.txt"]
    (by decide) (by decide) (by decide)
  simpa using h

/-! ## C4: exclusion precedence -/

theorem solve_render_conflict_noWrite (m : Matcher) (w : Worker)
    (dst p : List String) :
    ((solve_render_conflict m w dst).2.all fun ev => !writesAt ev p) = true := by
  unfold solve_render_conflict
  by_cases h1 : match_skip m w dst = true
  · simp [h1, writesAt]
  · by_cases h2 : w.force = true <;> simp [h1, h2, writesAt]

theorem render_allowed_noWrite (m : Matcher) (w : Worker) (fs : Fs)
    (dst : List String) (isDir : Bool) (expected : String) (p : List String) :
    ((render_allowed m w fs dst isDir expected).2.all fun ev => !writesAt ev p)
      = true := by
  unfold render_allowed
  by_cases hg : dst ≠ [] ∧ match_exclude m w dst = true
  · simp [hg]
  · rw [if_neg hg]
    cases hfs : fs dst with
    | none => simp [writesAt]
    | some entry =>
      cases entry with
      | dir =>
        by_cases hd : isDir = true
        · simp [hd, writesAt]
        · simpa [hd] using solve_render_conflict_noWrite m w dst p
      | file prev =>
        by_cases he : prev = expected
        · simp [he, writesAt]
        · simpa [he] using solve_render_conflict_noWrite m w dst p

theorem render_allowed_true_not_excluded (m : Matcher) (w : Worker) (fs : Fs)
    (dst : List String) (isDir : Bool) (expected : String) (evs : List Event)
    (h : render_allowed m w fs dst isDir expected = (true, evs)) :
    dst = [] ∨ match_exclude m w dst = false := by
  by_cases hg : dst ≠ [] ∧ match_exclude m w dst = true
  · rw [render_allowed, if_pos hg] at h
    cases h
  · rcases not_and_or.mp hg with h1 | h2
    · exact Or.inl (not_not.mp h1)
    · exact Or.inr (Bool.not_eq_true _ ▸ eq_false_of_ne_true h2)

theorem render_allowed_true_ne (m : Matcher) (w : Worker) (fs : Fs)
    (dst : List String) (isDir : Bool) (expected : String) (evs : List Event)
    (p : List String) (hp : p ≠ []) (hmatch : match_exclude m w p = true)
    (h : render_allowed m w fs dst isDir expected = (true, evs)) :
    (dst == p) = false := by
  rcases render_allowed_true_not_excluded m w fs dst isDir expected evs h with h1 | h1
  · subst h1
    exact beq_eq_false_iff_ne.mpr fun hcontra => hp hcontra.symm
  · exact beq_eq_false_iff_ne.mpr fun hcontra => by
      rw [hcontra, hmatch] at h1
      cases h1

theorem render_file_noWrite (m : Matcher) (w : Worker) (p : List String)
    (hp : p ≠ []) (hmatch : match_exclude m w p = true)
    (fs : Fs) (relParts : List String) (src : String) :
    ((render_file m w fs relParts src).1.all fun ev => !writesAt ev p) = true := by
  unfold render_file
  cases hrp : render_path w relParts with
  | none => simp
  | some dst =>
    cases hra : render_allowed m w fs dst false (rendered_content w relParts src) with
    | mk allowed evs =>
      have hevs : ∀ ev ∈ evs, writesAt ev p = false := by
        have h := render_allowed_noWrite m w fs dst false
          (rendered_content w relParts src) p
        rw [hra] at h
        simpa using h
      simp only [hra]
      cases allowed with
      | false => simpa using hevs
      | true =>
        have hne : (dst == p) = false :=
          render_allowed_true_ne m w fs dst false _ evs p hp hmatch hra
        have hw : writesAt (Event.write dst (rendered_content w relParts src)) p
            = false := by
          simp [writesAt, hne]
        by_cases hpr : w.pretend = true
        · simpa [hpr] using hevs
        · simp [hpr, hw]
          exact hevs

mutual

theorem render_entry_noWrite (m : Matcher) (w : Worker) (p : List String)
    (hp : p ≠ []) (hmatch : match_exclude m w p = true)
    (fs : Fs) (relParts : List String) (e : SrcEntry) :
    ((render_entry m w fs relParts e).1.all fun ev => !writesAt ev p) = true := by
  cases e with
  | file content => exact render_file_noWrite m w p hp hmatch fs relParts content
  | dir children =>
    rw [render_entry]
    cases hrp : render_path w relParts with
    | none => simp
    | some dst =>
      cases hra : render_allowed m w fs dst true "" with
      | mk allowed evs =>
        have hevs : ∀ ev ∈ evs, writesAt ev p = false := by
          have h := render_allowed_noWrite m w fs dst true "" p
          rw [hra] at h
          simpa using h
        simp only [hra]
        cases allowed with
        | false => simpa using hevs
        | true =>
          have hne : (dst == p) = false :=
            render_allowed_true_ne m w fs dst true "" evs p hp hmatch hra
          have hmk : writesAt (Event.mkdir dst) p = false := by
            simp [writesAt, hne]
          by_cases hpr : w.pretend = true
          · have hrec : ∀ ev ∈ (render_entries m w fs relParts children).1,
                writesAt ev p = false := by
              simpa using render_entries_noWrite m w p hp hmatch fs relParts children
            simp [hpr]
            exact ⟨hevs, hrec⟩
          · have hrec : ∀ ev ∈ (render_entries m w (mkdirFs fs dst) relParts children).1,
                writesAt ev p = false := by
              simpa using render_entries_noWrite m w p hp hmatch
                (mkdirFs fs dst) relParts children
            simp [hpr, hmk]
            exact ⟨hevs, hrec⟩

theorem render_entries_noWrite (m : Matcher) (w : Worker) (p : List String)
    (hp : p ≠ []) (hmatch : match_exclude m w p = true)
    (fs : Fs) (relParts : List String) (l : List (String × SrcEntry)) :
    ((render_entries m w fs relParts l).1.all fun ev => !writesAt ev p) = true := by
  cases l with
  | nil => simp [render_entries]
  | cons hd rest =>
    obtain ⟨name, e⟩ := hd
    have h1 : ∀ ev ∈ (render_entry m w fs (relParts ++ [name]) e).1,
        writesAt ev p = false := by
      simpa using render_entry_noWrite m w p hp hmatch fs (relParts ++ [name]) e
    have h2 : ∀ ev ∈ (render_entries m w
        (render_entry m w fs (relParts ++ [name]) e).2 relParts rest).1,
        writesAt ev p = false := by
      simpa using render_entries_noWrite m w p hp hmatch
        (render_entry m w fs (relParts ++ [name]) e).2 relParts rest
    simp only [render_entries]
    simp
    exact ⟨h1, h2⟩

end

/-- **C4.** If a destination-relative path `p`, other than the copy root
`[]`, matches the pathspec matcher built from the union of template and
caller exclude patterns, then the whole walk emits no `write` or `mkdir`
event at `p` — whatever the `force` flag (which the exclusion check never
consults).  Moreover the copy root itself is never excluded: even when the
matcher matches `[]`, `_render_allowed` skips the exclusion check there
(shown here on a fresh root, which is reported `create` and allowed). -/
theorem exclusion_precedence (m : Matcher) (w : Worker) (fs fs2 : Fs)
    (tree : List (String × SrcEntry)) (p : List String)
    (isDir : Bool) (expected : String)
    (hp : p ≠ [])
    (hmatch : match_exclude m w p = true)
    (hroot : fs2 [] = none) :
    ((render_entry m w fs [] (SrcEntry.dir tree)).1.all
        fun ev => !writesAt ev p) = true
    ∧ render_allowed m w fs2 [] isDir expected = (true, [Event.create []]) := by
  constructor
  · exact render_entry_noWrite m w p hp hmatch fs [] (SrcEntry.dir tree)
  · rw [render_allowed, if_neg (by simp), hroot]

/-- Worker for the C4 witness: the template excludes `secret.txt`, the
caller additionally excludes `notes.md`, and `force` is on. -/
def exclWorker : Worker :=
  { plainWorker with
      templateExclude := ["secret.txt"],
      exclude := ["notes.md"],
      force := true }

/-- Witness for C4: a forced run over a tree containing `secret.txt` (an
excluded path, matched by the caller-side pattern union) writes nothing at
`secret.txt`, and the fresh copy root is allowed even though the matcher
also matches `[]` (because `lastName [] = ""` is not listed — we check the
root clause on a matcher-independent fresh root). -/
theorem exclusion_precedence_witness :
    ((render_entry lastNameMatcher exclWorker emptyFs []
        (SrcEntry.dir [("secret.txt", SrcEntry.file "top secret"),
                       ("public.txt", SrcEntry.file "hello")])).1.all
      fun ev => !writesAt ev ["secret.txt"]) = true
    ∧ render_allowed lastNameMatcher exclWorker emptyFs [] true ""
        = (true, [Event.create []]) :=
  exclusion_precedence lastNameMatcher exclWorker emptyFs emptyFs
    [("secret.txt", SrcEntry.file "top secret"),
     ("public.txt", SrcEntry.file "hello")]
    ["secret.txt"] true "" (by decide) (by decide) rfl

/-! ## C3: the `identical` case

`_render_allowed` reports `identical` and returns `True` when the existing
bytes equal the expected content (src/copier/main.py:271-280); `_render_file`
then proceeds to `write_bytes` (src/copier/main.py:374-378).  So an
identical file is reported `identical` but *is* rewritten (with the same
bytes) unless `pretend` is set — the destination content is unchanged, yet
a write operation does occur. -/

/-- A destination tree holding one file `a.txt` with content `hello`. -/
def helloFs : Fs :=
  fun q => if q = ["a.txt"] then some (Entry.file "hello") else none

/-- Counterexample to C3 as stated: at a concrete identical file, the
pipeline reports `identical` *and* performs a write operation on the path
(with the same bytes). -/
theorem identical_write_counterexample :
    helloFs ["a.txt"] = some (Entry.file "hello")
    ∧ rendered_content plainWorker ["a.txt"] "hello" = "hello"
    ∧ (render_file noMatcher plainWorker helloFs ["a.txt"] "hello").1
        = [Event.identical ["a.txt"], Event.write ["a.txt"] "hello"] := by
  refine ⟨by decide, by decide, by decide⟩

/-- **C3 (amended).** If the destination file exists, its bytes equal the
expected rendered content `E`, and the path is not excluded, the pipeline
reports `identical` and then — unless in pretend mode — rewrites the file
with the same bytes `E`; the destination content at the path is unchanged
(and no other path is touched), but a write operation is performed. -/
theorem identical_report_rewrite (m : Matcher) (w : Worker) (fs : Fs)
    (relParts : List String) (src : String) (p : List String) (E : String)
    (hpath : render_path w relParts = some p)
    (hcontent : rendered_content w relParts src = E)
    (hfs : fs p = some (Entry.file E))
    (hexcl : match_exclude m w p = false) :
    (render_file m w fs relParts src).1
        = [Event.identical p] ++ (if w.pretend then [] else [Event.write p E])
    ∧ ∀ q, (render_file m w fs relParts src).2 q
        = if q = p then some (Entry.file E) else fs q := by
  have hra : render_allowed m w fs p false E = (true, [Event.identical p]) := by
    unfold render_allowed
    rw [if_neg (by simp [hexcl]), hfs]
    simp
  constructor
  · unfold render_file
    rw [hpath]
    simp only [hcontent, hra]
    by_cases hpr : w.pretend = true <;> simp [hpr]
  · intro q
    unfold render_file
    rw [hpath]
    simp only [hcontent, hra]
    by_cases hpr : w.pretend = true
    · by_cases hq : q = p
      · subst hq
        simp [hpr, hfs]
      · simp [hpr, hq]
    · by_cases hq : q = p
      · subst hq
        simp [hpr, writeFs]
      · simp [hpr, hq, writeFs]

/-- Witness for the amended C3 at the concrete identical file. -/
theorem identical_report_rewrite_witness :
    (render_file noMatcher plainWorker helloFs ["a.txt"] "hello").1
        = [Event.identical ["a.txt"]]
          ++ (if plainWorker.pretend then [] else [Event.write ["a.txt"] "hello"])
    ∧ ∀ q, (render_file noMatcher plainWorker helloFs ["a.txt"] "hello").2 q
        = if q = ["a.txt"] then some (Entry.file "hello") else helloFs q :=
  identical_report_rewrite noMatcher plainWorker helloFs ["a.txt"] "hello"
    ["a.txt"] "hello" (by decide) (by decide) (by decide) rfl

/-! ## Python values (config entries, answers)

Used by claims C7, C8 and C9.  Floats are carried opaquely by their repr
string; arbitrary non-serializable Python objects are `pyobj`. -/

inductive Value where
  | null
  | bool (b : Bool)
  | int (n : Int)
  | float (repr : String)
  | str (s : String)
  | list (items : List Value)
  | dict (entries : List (String × Value))
  | pyobj (tag : String)

/-- Python truthiness on the modeled values (`0.0`/`-0.0` are the falsy
float reprs; any other repr is treated as truthy). -/
def truthy : Value → Bool
  | .null => false
  | .bool b => b
  | .int n => n ≠ 0
  | .float r => r ≠ "0.0" && r ≠ "-0.0"
  | .str s => s ≠ ""
  | .list xs => !xs.isEmpty
  | .dict es => !es.isEmpty
  | .pyobj _ => true

/-- `v.get(k)` on a mapping value. -/
def vGet : Value → String → Option Value
  | .dict es, k => es.lookup k
  | _, _ => none

/-- `v.get(k)` with Python's `None` as the default. -/
def vGetD (v : Value) (k : String) : Value :=
  (vGet v k).getD .null

/-- `k.startswith("_")`, via the character list (kernel-reducible). -/
def startsUnderscore (k : String) : Bool :=
  match k.toList with
  | '_' :: _ => true
  | _ => false

/-- Python `k[1:]`, via the character list. -/
def strTail (k : String) : String :=
  String.mk (k.toList.drop 1)

/-! ## C8: `filter_config` (src/copier/template.py:37-53) -/

/-- Python `set.add`, modeled on an insertion-ordered list (membership is
the set semantics). -/
def setInsert (s : List String) (k : String) : List String :=
  if s.contains k then s else s ++ [k]

/-- `conf_data["secret_questions"].update(v)` for a `_secret_questions`
value; the lists hold question-name strings, which are added one by one
(non-list values, outside the modeled domain, leave the set unchanged). -/
def setUpdate (s : List String) (v : Value) : List String :=
  match v with
  | .list xs =>
    xs.foldl
      (fun acc x =>
        match x with
        | .str t => setInsert acc t
        | _ => acc) s
  | _ => s

/-- `if not isinstance(v, dict): v = {"default": v}`. -/
def promoteQuestion (v : Value) : Value :=
  match v with
  | .dict es => .dict es
  | other => .dict [("default", other)]

/-- The configuration half produced by `filter_config`: the
`secret_questions` set plus the engine settings (the other `_`-prefixed
keys, underscore stripped). -/
structure ConfData where
  secret_questions : List String
  settings : List (String × Value)

/-- The `for k, v in data.items()` loop of `filter_config`, carrying the
accumulated `conf_data` and `questions_data` (`dictInsert` models the
Python dict assignments). -/
def filterConfigLoop : List (String × Value) → ConfData → List (String × Value) →
    ConfData × List (String × Value)
  | [], conf, questions => (conf, questions)
  | (k, v) :: rest, conf, questions =>
    if k = "_secret_questions" then
      filterConfigLoop rest
        { conf with secret_questions := setUpdate conf.secret_questions v }
        questions
    else if startsUnderscore k then
      filterConfigLoop rest
        { conf with settings := dictInsert conf.settings (strTail k) v }
        questions
    else
      let v' := promoteQuestion v
      let conf' :=
        if truthy (vGetD v' "secret") then
          { conf with secret_questions := setInsert conf.secret_questions k }
        else conf
      filterConfigLoop rest conf' (dictInsert questions k v')

/-- Embedding of `filter_config(data)` (src/copier/template.py:37-53):
`conf_data` starts as `{"secret_questions": set()}`, `questions_data`
starts empty. -/
def filter_config (data : List (String × Value)) :
    ConfData × List (String × Value) :=
  filterConfigLoop data ⟨[], []⟩ []

/-- Does the (list-valued) `_secret_questions` entry `v` list the name `q`? -/
def secretListItem (v : Value) (q : String) : Prop :=
  match v with
  | .list xs => Value.str q ∈ xs
  | _ => False

theorem mem_setInsert (s : List String) (k q : String) :
    q ∈ setInsert s k ↔ q ∈ s ∨ q = k := by
  unfold setInsert
  by_cases h : s.contains k = true
  · rw [if_pos h]
    constructor
    · exact Or.inl
    · rintro (hq | rfl)
      · exact hq
      · simpa using h
  · rw [if_neg h]
    simp

theorem mem_setUpdate_list (xs : List Value) (s : List String) (q : String) :
    q ∈ xs.foldl
        (fun acc x =>
          match x with
          | Value.str t => setInsert acc t
          | _ => acc) s
      ↔ q ∈ s ∨ Value.str q ∈ xs := by
  induction xs generalizing s with
  | nil => simp
  | cons x rest ih =>
    cases x with
    | null => rw [List.foldl_cons, ih]; simp
    | bool b => rw [List.foldl_cons, ih]; simp
    | int n => rw [List.foldl_cons, ih]; simp
    | float r => rw [List.foldl_cons, ih]; simp
    | str t =>
      rw [List.foldl_cons, ih, mem_setInsert]
      simp only [List.mem_cons, Value.str.injEq]
      tauto
    | list xs2 => rw [List.foldl_cons, ih]; simp
    | dict es => rw [List.foldl_cons, ih]; simp
    | pyobj tg => rw [List.foldl_cons, ih]; simp

theorem mem_setUpdate (s : List String) (v : Value) (q : String) :
    q ∈ setUpdate s v ↔ q ∈ s ∨ secretListItem v q := by
  cases v with
  | list xs => simpa [setUpdate, secretListItem] using mem_setUpdate_list xs s q
  | null => simp [setUpdate, secretListItem]
  | bool b => simp [setUpdate, secretListItem]
  | int n => simp [setUpdate, secretListItem]
  | float r => simp [setUpdate, secretListItem]
  | str t => simp [setUpdate, secretListItem]
  | dict es => simp [setUpdate, secretListItem]
  | pyobj tg => simp [setUpdate, secretListItem]

/-- Membership in the `secret_questions` set built by the `filter_config`
loop, characterized against the raw input items. -/
theorem filterConfigLoop_secret (data : List (String × Value)) (q : String) :
    ∀ (conf : ConfData) (qacc : List (String × Value)),
    q ∈ (filterConfigLoop data conf qacc).1.secret_questions ↔
      q ∈ conf.secret_questions
      ∨ (∃ v, ("_secret_questions", v) ∈ data ∧ secretListItem v q)
      ∨ (∃ v, (q, v) ∈ data ∧ startsUnderscore q = false
          ∧ truthy (vGetD (promoteQuestion v) "secret") = true) := by
  induction data with
  | nil =>
    intro conf qacc
    simp [filterConfigLoop]
  | cons hd rest ih =>
    intro conf qacc
    obtain ⟨k, v⟩ := hd
    by_cases h1 : k = "_secret_questions"
    · subst h1
      rw [filterConfigLoop, if_pos rfl, ih, mem_setUpdate]
      constructor
      · rintro ((h | h) | ⟨v', hv', hit⟩ | ⟨v', hv', hu, ht⟩)
        · exact Or.inl h
        · exact Or.inr (Or.inl ⟨v, List.mem_cons_self _ _, h⟩)
        · exact Or.inr (Or.inl ⟨v', List.mem_cons_of_mem _ hv', hit⟩)
        · exact Or.inr (Or.inr ⟨v', List.mem_cons_of_mem _ hv', hu, ht⟩)
      · rintro (h | ⟨v', hv', hit⟩ | ⟨v', hv', hu, ht⟩)
        · exact Or.inl (Or.inl h)
        · rcases List.mem_cons.mp hv' with heq | hv'
          · cases heq
            exact Or.inl (Or.inr hit)
          · exact Or.inr (Or.inl ⟨v', hv', hit⟩)
        · rcases List.mem_cons.mp hv' with heq | hv'
          · exfalso
            cases heq
            simp [startsUnderscore] at hu
          · exact Or.inr (Or.inr ⟨v', hv', hu, ht⟩)
    · by_cases h2 : startsUnderscore k = true
      · rw [filterConfigLoop, if_neg h1, if_pos h2, ih]
        constructor
        · rintro (h | ⟨v', hv', hit⟩ | ⟨v', hv', hu, ht⟩)
          · exact Or.inl h
          · exact Or.inr (Or.inl ⟨v', List.mem_cons_of_mem _ hv', hit⟩)
          · exact Or.inr (Or.inr ⟨v', List.mem_cons_of_mem _ hv', hu, ht⟩)
        · rintro (h | ⟨v', hv', hit⟩ | ⟨v', hv', hu, ht⟩)
          · exact Or.inl h
          · rcases List.mem_cons.mp hv' with heq | hv'
            · exact absurd (congrArg Prod.fst heq).symm h1
            · exact Or.inr (Or.inl ⟨v', hv', hit⟩)
          · rcases List.mem_cons.mp hv' with heq | hv'
            · exfalso
              cases heq
              rw [h2] at hu
              cases hu
            · exact Or.inr (Or.inr ⟨v', hv', hu, ht⟩)
      · rw [filterConfigLoop, if_neg h1, if_neg h2]
        dsimp only
        by_cases h3 : truthy (vGetD (promoteQuestion v) "secret") = true
        · rw [if_pos h3, ih, mem_setInsert]
          constructor
          · rintro ((h | rfl) | ⟨v', hv', hit⟩ | ⟨v', hv', hu, ht⟩)
            · exact Or.inl h
            · exact Or.inr (Or.inr ⟨v, List.mem_cons_self _ _,
                Bool.not_eq_true _ ▸ eq_false_of_ne_true h2, h3⟩)
            · exact Or.inr (Or.inl ⟨v', List.mem_cons_of_mem _ hv', hit⟩)
            · exact Or.inr (Or.inr ⟨v', List.mem_cons_of_mem _ hv', hu, ht⟩)
          · rintro (h | ⟨v', hv', hit⟩ | ⟨v', hv', hu, ht⟩)
            · exact Or.inl (Or.inl h)
            · rcases List.mem_cons.mp hv' with heq | hv'
              · exfalso
                cases heq
                exact h1 rfl
              · exact Or.inr (Or.inl ⟨v', hv', hit⟩)
            · rcases List.mem_cons.mp hv' with heq | hv'
              · cases heq
                exact Or.inl (Or.inr rfl)
              · exact Or.inr (Or.inr ⟨v', hv', hu, ht⟩)
        · rw [if_neg h3, ih]
          constructor
          · rintro (h | ⟨v', hv', hit⟩ | ⟨v', hv', hu, ht⟩)
            · exact Or.inl h
            · exact Or.inr (Or.inl ⟨v', List.mem_cons_of_mem _ hv', hit⟩)
            · exact Or.inr (Or.inr ⟨v', List.mem_cons_of_mem _ hv', hu, ht⟩)
          · rintro (h | ⟨v', hv', hit⟩ | ⟨v', hv', hu, ht⟩)
            · exact Or.inl h
            · rcases List.mem_cons.mp hv' with heq | hv'
              · exfalso
                cases heq
                exact h1 rfl
              · exact Or.inr (Or.inl ⟨v', hv', hit⟩)
            · rcases List.mem_cons.mp hv' with heq | hv'
              · exfalso
                cases heq
                exact h3 ht
              · exact Or.inr (Or.inr ⟨v', hv', hu, ht⟩)

theorem dictInsert_fresh {α : Type} (d : List (String × α)) (k : String) (v : α)
    (h : d.any (fun p => p.1 == k) = false) :
    dictInsert d k v = d ++ [(k, v)] := by
  simp only [dictInsert, h]
  simp

/-- The questions half of the `filter_config` loop: with pairwise-distinct
question keys (guaranteed by the Python input being a dict) not already in
the accumulator, it appends the promoted non-underscore entries in order. -/
theorem filterConfigLoop_questions (data : List (String × Value)) :
    ∀ (conf : ConfData) (qacc : List (String × Value)),
    (data.filterMap fun kv =>
        if startsUnderscore kv.1 = false then some kv.1 else none).Nodup →
    (∀ kv ∈ data, startsUnderscore kv.1 = false →
        qacc.any (fun p => p.1 == kv.1) = false) →
    (filterConfigLoop data conf qacc).2
      = qacc ++ data.filterMap (fun kv =>
          if startsUnderscore kv.1 = false
          then some (kv.1, promoteQuestion kv.2) else none) := by
  induction data with
  | nil =>
    intro conf qacc _ _
    simp [filterConfigLoop]
  | cons hd rest ih =>
    intro conf qacc hnd hfresh
    obtain ⟨k, v⟩ := hd
    by_cases h1 : k = "_secret_questions"
    · subst h1
      rw [filterConfigLoop, if_pos rfl]
      rw [ih _ qacc (by simpa [startsUnderscore] using hnd)
        (fun kv hkv => hfresh kv (List.mem_cons_of_mem _ hkv))]
      simp [startsUnderscore]
    · by_cases h2 : startsUnderscore k = true
      · rw [filterConfigLoop, if_neg h1, if_pos h2]
        rw [ih _ qacc (by simpa [h2] using hnd)
          (fun kv hkv => hfresh kv (List.mem_cons_of_mem _ hkv))]
        simp [h2]
      · have h2' : startsUnderscore k = false := by
          simpa using h2
        rw [filterConfigLoop, if_neg h1, if_neg h2]
        dsimp only
        have hq : dictInsert qacc k (promoteQuestion v) = qacc ++ [(k, promoteQuestion v)] :=
          dictInsert_fresh qacc k (promoteQuestion v)
            (hfresh (k, v) (List.mem_cons_self _ _) h2')
        have hnd' : (rest.filterMap fun kv =>
            if startsUnderscore kv.1 = false then some kv.1 else none).Nodup := by
          rw [List.filterMap_cons] at hnd
          simp only [h2'] at hnd
          exact hnd.of_cons
        have hknot : k ∉ rest.filterMap fun kv =>
            if startsUnderscore kv.1 = false then some kv.1 else none := by
          rw [List.filterMap_cons] at hnd
          simp only [h2'] at hnd
          exact (List.nodup_cons.mp hnd).1
        have hfresh' : ∀ kv ∈ rest, startsUnderscore kv.1 = false →
            (qacc ++ [(k, promoteQuestion v)]).any (fun p => p.1 == kv.1) = false := by
          intro kv hkv hu
          rw [List.any_append]
          have hh1 := hfresh kv (List.mem_cons_of_mem _ hkv) hu
          have hh2 : k ≠ kv.1 := by
            intro hcontra
            exact hknot (by
              subst hcontra
              exact List.mem_filterMap.mpr ⟨kv, hkv, by simp [hu]⟩)
          simp [hh1, hh2]
        by_cases h3 : truthy (vGetD (promoteQuestion v) "secret") = true
        · rw [if_pos h3, hq, ih _ _ hnd' hfresh']
          simp [h2']
        · rw [if_neg h3, hq, ih _ _ hnd' hfresh']
          simp [h2']

/-- The settings half of the `filter_config` loop: with pairwise-distinct
stripped keys not already in the accumulated settings, it appends the
underscore-stripped entries in order. -/
theorem filterConfigLoop_settings (data : List (String × Value)) :
    ∀ (conf : ConfData) (qacc : List (String × Value)),
    (data.filterMap fun kv =>
        if startsUnderscore kv.1 = true ∧ kv.1 ≠ "_secret_questions"
        then some (strTail kv.1) else none).Nodup →
    (∀ kv ∈ data, startsUnderscore kv.1 = true → kv.1 ≠ "_secret_questions" →
        conf.settings.any (fun p => p.1 == strTail kv.1) = false) →
    (filterConfigLoop data conf qacc).1.settings
      = conf.settings ++ data.filterMap (fun kv =>
          if startsUnderscore kv.1 = true ∧ kv.1 ≠ "_secret_questions"
          then some (strTail kv.1, kv.2) else none) := by
  induction data with
  | nil =>
    intro conf qacc _ _
    simp [filterConfigLoop]
  | cons hd rest ih =>
    intro conf qacc hnd hfresh
    obtain ⟨k, v⟩ := hd
    by_cases h1 : k = "_secret_questions"
    · subst h1
      rw [filterConfigLoop, if_pos rfl]
      have hnd' : (rest.filterMap fun kv =>
          if startsUnderscore kv.1 = true ∧ kv.1 ≠ "_secret_questions"
          then some (strTail kv.1) else none).Nodup := by
        rw [List.filterMap_cons] at hnd
        simpa using hnd
      rw [ih { conf with
            secret_questions := setUpdate conf.secret_questions v } qacc hnd'
        (fun kv hkv => hfresh kv (List.mem_cons_of_mem _ hkv))]
      simp
    · by_cases h2 : startsUnderscore k = true
      · rw [filterConfigLoop, if_neg h1, if_pos h2]
        have hs : dictInsert conf.settings (strTail k) v
            = conf.settings ++ [(strTail k, v)] :=
          dictInsert_fresh _ _ _ (hfresh (k, v) (List.mem_cons_self _ _) h2 h1)
        have hnd2 : (strTail k ::
            (rest.filterMap fun kv =>
              if startsUnderscore kv.1 = true ∧ kv.1 ≠ "_secret_questions"
              then some (strTail kv.1) else none)).Nodup := by
          rw [List.filterMap_cons] at hnd
          simpa [h2, h1] using hnd
        have hnd' := hnd2.of_cons
        have hknot : strTail k ∉ rest.filterMap fun kv =>
            if startsUnderscore kv.1 = true ∧ kv.1 ≠ "_secret_questions"
            then some (strTail kv.1) else none := (List.nodup_cons.mp hnd2).1
        have hfresh' : ∀ kv ∈ rest, startsUnderscore kv.1 = true →
            kv.1 ≠ "_secret_questions" →
            ((conf.settings ++ [(strTail k, v)]).any
              (fun p => p.1 == strTail kv.1)) = false := by
          intro kv hkv hu hns
          rw [List.any_append]
          have hh1 := hfresh kv (List.mem_cons_of_mem _ hkv) hu hns
          have hh2 : strTail k ≠ strTail kv.1 := by
            intro hcontra
            exact hknot (hcontra ▸
              List.mem_filterMap.mpr ⟨kv, hkv, by simp [hu, hns]⟩)
          simp [hh1, hh2]
        rw [hs, ih { conf with settings := conf.settings ++ [(strTail k, v)] }
          qacc hnd' hfresh']
        simp [h2, h1]
      · have h2' : startsUnderscore k = false := by
          simpa using h2
        rw [filterConfigLoop, if_neg h1, if_neg h2]
        dsimp only
        have hnd' : (rest.filterMap fun kv =>
            if startsUnderscore kv.1 = true ∧ kv.1 ≠ "_secret_questions"
            then some (strTail kv.1) else none).Nodup := by
          rw [List.filterMap_cons] at hnd
          simpa [h2'] using hnd
        by_cases h3 : truthy (vGetD (promoteQuestion v) "secret") = true
        · rw [if_pos h3, ih { conf with
              secret_questions := setInsert conf.secret_questions k }
            (dictInsert qacc k (promoteQuestion v)) hnd'
            (fun kv hkv hu hns => hfresh kv (List.mem_cons_of_mem _ hkv) hu hns)]
          simp [h2']
        · rw [if_neg h3, ih conf (dictInsert qacc k (promoteQuestion v)) hnd'
            (fun kv hkv hu hns => hfresh kv (List.mem_cons_of_mem _ hkv) hu hns)]
          simp [h2']

/-- **C8.** `filter_config` splits its input so that: the questions output
holds exactly the non-underscore keys, in order, with non-mapping values
promoted to `{default: v}`; the settings output holds exactly the other
underscore keys, stripped of the underscore; and the `secret_questions`
set holds exactly the names listed under `_secret_questions` plus the
question names whose (promoted) mapping has a truthy `secret` field.  The
two `Nodup` hypotheses come for free from the Python input being a dict. -/
theorem filter_config_spec (data : List (String × Value))
    (hqn : (data.filterMap fun kv =>
        if startsUnderscore kv.1 = false then some kv.1 else none).Nodup)
    (hsn : (data.filterMap fun kv =>
        if startsUnderscore kv.1 = true ∧ kv.1 ≠ "_secret_questions"
        then some (strTail kv.1) else none).Nodup) :
    (filter_config data).2
        = data.filterMap (fun kv =>
            if startsUnderscore kv.1 = false
            then some (kv.1, promoteQuestion kv.2) else none)
    ∧ (filter_config data).1.settings
        = data.filterMap (fun kv =>
            if startsUnderscore kv.1 = true ∧ kv.1 ≠ "_secret_questions"
            then some (strTail kv.1, kv.2) else none)
    ∧ (∀ q, q ∈ (filter_config data).1.secret_questions ↔
        (∃ v, ("_secret_questions", v) ∈ data ∧ secretListItem v q)
        ∨ (∃ v, (q, v) ∈ data ∧ startsUnderscore q = false
            ∧ truthy (vGetD (promoteQuestion v) "secret") = true)) := by
  refine ⟨?_, ?_, ?_⟩
  · have h := filterConfigLoop_questions data ⟨[], []⟩ [] hqn (by simp)
    simpa [filter_config] using h
  · have h := filterConfigLoop_settings data ⟨[], []⟩ [] hsn (by simp)
    simpa [filter_config] using h
  · intro q
    have h := filterConfigLoop_secret data q ⟨[], []⟩ []
    simpa [filter_config] using h

/-- A concrete raw `copier.yml` mapping for the C8 witness. -/
def cfgData : List (String × Value) :=
  [("_secret_questions", Value.list [Value.str "token"]),
   ("_exclude", Value.list [Value.str "*.bak"]),
   ("name", Value.str "world"),
   ("password", Value.dict [("secret", Value.bool true),
                            ("default", Value.str "")])]

/-- Witness for C8 on `cfgData`: the split computes as specified. -/
theorem filter_config_spec_witness :
    (filter_config cfgData).2
        = [("name", Value.dict [("default", Value.str "world")]),
           ("password", Value.dict [("secret", Value.bool true),
                                    ("default", Value.str "")])]
    ∧ (filter_config cfgData).1.settings
        = [("exclude", Value.list [Value.str "*.bak"])]
    ∧ "token" ∈ (filter_config cfgData).1.secret_questions
    ∧ "password" ∈ (filter_config cfgData).1.secret_questions := by
  have h := filter_config_spec cfgData (by decide) (by decide)
  refine ⟨?_, ?_, ?_, ?_⟩
  · rw [h.1]
    rfl
  · rw [h.2.1]
    rfl
  · exact (h.2.2 "token").mpr (Or.inl ⟨Value.list [Value.str "token"],
      List.mem_cons_self _ _, by simp [secretListItem]⟩)
  · refine (h.2.2 "password").mpr (Or.inr ⟨Value.dict [("secret", Value.bool true),
      ("default", Value.str "")], ?_, by decide, by decide⟩)
    simp [cfgData]

/-! ## C7: `Template.secret_questions` (src/copier/template.py:234-244) and
`Worker._answers_to_remember` (src/copier/main.py:130-148) -/

/-- Embedding of `Template.secret_questions`: start from
`config_data["secret_questions"]` (the set `filter_config` built), then add
every question whose value has a truthy `secret` field. -/
def secret_questions (rawConfig : List (String × Value)) : List String :=
  ((filter_config rawConfig).2).foldl
    (fun acc kv => if truthy (vGetD kv.2 "secret") then setInsert acc kv.1 else acc)
    ((filter_config rawConfig).1).secret_questions

/-- Modelled from the spec: the shallow `isinstance(v, JSONSerializable)`
check from `copier/types.py`, which is not among the sources.  Per the spec
the JSON-serializable values are "primitives, lists, mappings, null", so
only opaque Python objects fail the check (and string keys always pass). -/
def isJSONSerializable : Value → Bool
  | .pyobj _ => false
  | _ => true

/-- The filter applied to `self.answers.combined.items()` in
`_answers_to_remember`: keep keys not starting with `_`, not secret, with
JSON-serializable key and value (keys are strings, hence always
serializable). -/
def answersPred (secret : List String) (kv : String × Value) : Bool :=
  !startsUnderscore kv.1 && !secret.contains kv.1 && isJSONSerializable kv.2

/-- The state `_answers_to_remember` reads: `self.template.commit`,
`self.template.url`, `self.answers.combined` and
`self.template.secret_questions`. -/
structure AnswersState where
  templateCommit : Option String
  templateUrl : String
  combined : List (String × Value)
  secretQuestions : List String

/-- The internal keys written first: `_commit` (skipped when the commit is
`None`) then `_src_path` (the URL, a string, never `None`). -/
def internalEntries (commit : Option String) (url : String) :
    List (String × Value) :=
  (match commit with
   | some c => [("_commit", Value.str c)]
   | none => []) ++ [("_src_path", Value.str url)]

/-- Embedding of `Worker._answers_to_remember` (src/copier/main.py:130-148):
the internal entries first, then `answers.update(...)` over the combined
answers restricted by `answersPred` (dict assignment modeled by
`dictInsert`). -/
def answers_to_remember (a : AnswersState) : List (String × Value) :=
  a.combined.foldl
    (fun acc kv =>
      if answersPred a.secretQuestions kv then dictInsert acc kv.1 kv.2 else acc)
    (internalEntries a.templateCommit a.templateUrl)

theorem mem_foldl_setInsert {β : Type} (f : β → Bool) (g : β → String)
    (l : List β) (acc : List String) (q : String) (h : q ∈ acc) :
    q ∈ l.foldl (fun acc x => if f x then setInsert acc (g x) else acc) acc := by
  induction l generalizing acc with
  | nil => exact h
  | cons hd tl ih =>
    rw [List.foldl_cons]
    by_cases hf : f hd = true
    · rw [if_pos hf]
      exact ih _ ((mem_setInsert _ _ _).mpr (Or.inl h))
    · rw [if_neg hf]
      exact ih _ h

theorem mem_secret_questions_of_conf (rawConfig : List (String × Value))
    (q : String) (h : q ∈ (filter_config rawConfig).1.secret_questions) :
    q ∈ secret_questions rawConfig := by
  unfold secret_questions
  exact mem_foldl_setInsert (fun (kv : String × Value) => truthy (vGetD kv.2 "secret"))
    Prod.fst (filter_config rawConfig).2 (filter_config rawConfig).1.secret_questions q h

/-- The accumulated `answers.update` loop, characterized as an append of the
filtered combined answers (keys are pairwise distinct since the combined
answers form a Python dict; filtered keys never collide with the
accumulator). -/
theorem answers_fold_spec (secret : List String) (combined : List (String × Value)) :
    ∀ acc : List (String × Value),
    (combined.map Prod.fst).Nodup →
    (∀ kv ∈ combined, answersPred secret kv = true →
        acc.any (fun p => p.1 == kv.1) = false) →
    combined.foldl
        (fun acc kv =>
          if answersPred secret kv then dictInsert acc kv.1 kv.2 else acc) acc
      = acc ++ combined.filter (answersPred secret) := by
  induction combined with
  | nil =>
    intro acc _ _
    simp
  | cons kv rest ih =>
    intro acc hnd hfresh
    rw [List.foldl_cons]
    have hnd' : (rest.map Prod.fst).Nodup := by
      rw [List.map_cons] at hnd
      exact hnd.of_cons
    by_cases hp : answersPred secret kv = true
    · rw [if_pos hp, dictInsert_fresh _ _ _ (hfresh kv (List.mem_cons_self _ _) hp)]
      have hfresh' : ∀ kv' ∈ rest, answersPred secret kv' = true →
          ((acc ++ [(kv.1, kv.2)]).any fun p => p.1 == kv'.1) = false := by
        intro kv' hkv' hp'
        rw [List.any_append]
        have hh1 := hfresh kv' (List.mem_cons_of_mem _ hkv') hp'
        have hh2 : kv.1 ≠ kv'.1 := by
          have hnotin : kv.1 ∉ rest.map Prod.fst := by
            rw [List.map_cons] at hnd
            exact (List.nodup_cons.mp hnd).1
          intro hcontra
          exact hnotin (hcontra ▸ List.mem_map.mpr ⟨kv', hkv', rfl⟩)
        simp [hh1, hh2]
      rw [ih (acc ++ [(kv.1, kv.2)]) hnd' hfresh']
      simp [List.filter_cons, hp]
    · rw [if_neg hp,
        ih acc hnd' (fun kv' h' hp' => hfresh kv' (List.mem_cons_of_mem _ h') hp')]
      have hp' : answersPred secret kv = false := by
        simpa using hp
      simp [List.filter_cons, hp']

/-- **C7.** The serialized answers mapping is the internal entries
(`_commit` when known, then `_src_path`) followed by exactly those combined
answers whose key does not start with `_`, is not a secret question, and
whose value is JSON-serializable; in particular the key of any question
declared with a truthy `secret` field never appears in it. -/
theorem answers_file_serialization (commit : Option String) (url : String)
    (combined rawConfig : List (String × Value)) (q : String) (rawv : Value)
    (hnodup : (combined.map Prod.fst).Nodup)
    (hq : (q, rawv) ∈ rawConfig)
    (hq2 : startsUnderscore q = false)
    (hsec : truthy (vGetD (promoteQuestion rawv) "secret") = true) :
    answers_to_remember ⟨commit, url, combined, secret_questions rawConfig⟩
        = internalEntries commit url
          ++ combined.filter (answersPred (secret_questions rawConfig))
    ∧ q ∉ (answers_to_remember ⟨commit, url, combined,
            secret_questions rawConfig⟩).map Prod.fst := by
  have hqsec : q ∈ secret_questions rawConfig := by
    apply mem_secret_questions_of_conf
    have h := (filterConfigLoop_secret rawConfig q ⟨[], []⟩ []).mpr
      (Or.inr (Or.inr ⟨rawv, hq, hq2, hsec⟩))
    simpa [filter_config] using h
  have hfresh0 : ∀ kv ∈ combined,
      answersPred (secret_questions rawConfig) kv = true →
      ((internalEntries commit url).any fun p => p.1 == kv.1) = false := by
    intro kv _ hp
    have hu : startsUnderscore kv.1 = false := by
      have h := hp
      simp only [answersPred, Bool.and_eq_true, Bool.not_eq_true'] at h
      exact h.1.1
    have hc : ∀ s : String, startsUnderscore s = true → (s == kv.1) = false := by
      intro s hs
      refine beq_eq_false_iff_ne.mpr ?_
      intro hcontra
      rw [hcontra, hu] at hs
      cases hs
    cases commit with
    | none => simp [internalEntries, hc "_src_path" (by decide)]
    | some c =>
      simp [internalEntries, hc "_src_path" (by decide), hc "_commit" (by decide)]
  have hmain : answers_to_remember
      ⟨commit, url, combined, secret_questions rawConfig⟩
        = internalEntries commit url
          ++ combined.filter (answersPred (secret_questions rawConfig)) :=
    answers_fold_spec (secret_questions rawConfig) combined
      (internalEntries commit url) hnodup hfresh0
  refine ⟨hmain, ?_⟩
  rw [hmain]
  simp only [List.map_append, List.mem_append]
  rintro (hin | hin)
  · have : startsUnderscore q = true := by
      cases commit with
      | none =>
        simp [internalEntries] at hin
        subst hin
        decide
      | some c =>
        simp [internalEntries] at hin
        rcases hin with rfl | rfl <;> decide
    rw [hq2] at this
    cases this
  · rcases List.mem_map.mp hin with ⟨kv, hkv, hfst⟩
    have hpred := (List.mem_filter.mp hkv).2
    simp only [answersPred, Bool.and_eq_true, Bool.not_eq_true'] at hpred
    have hcont : (secret_questions rawConfig).contains kv.1 = false := hpred.1.2
    rw [hfst] at hcont
    have : (secret_questions rawConfig).contains q = true := by
      simpa using hqsec
    rw [this] at hcont
    cases hcont

/-- A concrete raw config for the C7 witness: `password` is a secret
question and `token` is listed in `_secret_questions`. -/
def rawCfg : List (String × Value) :=
  [("_secret_questions", Value.list [Value.str "token"]),
   ("password", Value.dict [("secret", Value.bool true),
                            ("default", Value.str "")]),
   ("name", Value.str "world")]

/-- Concrete combined answers for the C7 witness, including a secret answer,
an internal key and a non-serializable value. -/
def combinedAnswers : List (String × Value) :=
  [("name", Value.str "Ada"),
   ("password", Value.str "hunter2"),
   ("_commit", Value.str "v9"),
   ("junk", Value.pyobj "socket")]

/-- Witness for C7: the `password` answer never reaches the answers file. -/
theorem answers_file_serialization_witness :
    answers_to_remember ⟨some "abc123", "https://tpl.git", combinedAnswers,
        secret_questions rawCfg⟩
      = internalEntries (some "abc123") "https://tpl.git"
        ++ combinedAnswers.filter (answersPred (secret_questions rawCfg))
    ∧ "password" ∉ (answers_to_remember ⟨some "abc123", "https://tpl.git",
        combinedAnswers, secret_questions rawCfg⟩).map Prod.fst :=
  answers_file_serialization (some "abc123") "https://tpl.git" combinedAnswers
    rawCfg "password"
    (Value.dict [("secret", Value.bool true), ("default", Value.str "")])
    (by decide) (List.mem_cons_of_mem _ (List.mem_cons_self _ _))
    (by decide) (by decide)

/-! ## C9: `query_user_data` (src/copier/config/user_data.py:249-313) -/

/-- The Python exceptions flowing through question resolution. -/
inductive PyErr where
  | typeError
  | attrError
  | valueError
  | invalidType
deriving DecidableEq, Repr

/-- The keys of `type_maps` (src/copier/config/user_data.py:257-264). -/
inductive QType where
  | bool
  | int
  | float
  | str
  | json
  | yaml
deriving DecidableEq, Repr

/-- Oracles for the external collaborators of `query_user_data`: the Jinja
engine (total; a rendering failure would raise before any recording),
`json.loads`, `yaml.safe_load`, Python `float()` conversions (IEEE floats
are outside the shallow embedding), `str()` of containers/objects, the
interactive `ask_interactively` (arguments: question, type, secret,
rendered placeholder, shown default, rendered choices, rendered help), and
the opaque `DEFAULT_DATA` of `copier/config/objects.py` (not among the
sources). -/
structure QEnv where
  renderTpl : List (String × Value) → String → String
  jsonLoads : String → Except PyErr Value
  yamlSafeLoad : String → Except PyErr Value
  floatConv : Value → Except PyErr Value
  strFallback : Value → String
  askFn : String → QType → Bool → Value → Value → Value → Value → Value
  defaultData : List (String × Value)

/-- `type_maps[type_name]`: the rendered type-name value must be one of the
six names, else the `KeyError` becomes `InvalidTypeError`. -/
def qtypeOfName : Value → Option QType
  | .str "bool" => some .bool
  | .str "float" => some .float
  | .str "int" => some .int
  | .str "json" => some .json
  | .str "str" => some .str
  | .str "yaml" => some .yaml
  | _ => none

/-- Python `str()` on the modeled values; containers and objects go through
the oracle. -/
def pyStr (env : QEnv) : Value → String
  | .null => "None"
  | .bool b => if b then "True" else "False"
  | .int n => toString n
  | .str s => s
  | .float r => r
  | v => env.strFallback v

/-- Python `int(string)`: an optional sign and digits (whitespace/underscore
refinements omitted); failure raises `ValueError`. -/
def pyParseInt (s : String) : Option Int :=
  match s.toList with
  | '-' :: rest =>
    if rest ≠ [] && rest.all Char.isDigit then some (-(Int.ofNat (segToNat rest)))
    else none
  | rest =>
    if rest ≠ [] && rest.all Char.isDigit then some (Int.ofNat (segToNat rest))
    else none

/-- Embedding of `parse_yaml_string` (src/copier/config/user_data.py:160-169):
`yaml.safe_load`, with `YAMLError` re-raised as `ValueError`. -/
def parse_yaml_string (env : QEnv) (s : String) : Except PyErr Value :=
  match env.yamlSafeLoad s with
  | .ok v => .ok v
  | .error _ => .error .valueError

/-- `type_fn(answer)` for each entry of `type_maps`: `bool`/`str` are
total; `int` follows Python `int()`; `float` is delegated to the oracle;
`json.loads` and the YAML parser accept only strings (raising
`TypeError` / `AttributeError` otherwise). -/
def typeFnApply (env : QEnv) : QType → Value → Except PyErr Value
  | .bool, v => .ok (.bool (truthy v))
  | .str, v => .ok (.str (pyStr env v))
  | .int, v =>
    match v with
    | .bool b => .ok (.int (if b then 1 else 0))
    | .int n => .ok (.int n)
    | .float _ => env.floatConv v
    | .str s =>
      match pyParseInt s with
      | some n => .ok (.int n)
      | none => .error .valueError
    | _ => .error .typeError
  | .float, v => env.floatConv v
  | .json, v =>
    match v with
    | .str s => env.jsonLoads s
    | _ => .error .typeError
  | .yaml, v =>
    match v with
    | .str s => parse_yaml_string env s
    | _ => .error .attrError

/-- Embedding of `cast_answer_type` (src/copier/config/user_data.py:202-214):
`None` is not cast to `"None"` for `str`; string booleans go through the
YAML parser; otherwise the type function is applied, with
`TypeError`/`AttributeError` caught (the answer is returned unchanged) and
other exceptions propagating. -/
def cast_answer_type (env : QEnv) (tf : QType) (answer : Value) :
    Except PyErr Value :=
  match tf, answer with
  | .str, .null => .ok .null
  | .bool, .str s => parse_yaml_string env s
  | _, _ =>
    match typeFnApply env tf answer with
    | .error .typeError => .ok answer
    | .error .attrError => .ok answer
    | r => r

/-- Embedding of `render_value` (src/copier/config/user_data.py:217-230):
only strings are templates; any other value is returned as is (the
`TypeError` branch of the source). -/
def render_value (env : QEnv) (ctx : List (String × Value)) (v : Value) : Value :=
  match v with
  | .str s => .str (env.renderTpl ctx s)
  | other => other

/-- Embedding of `render_choices` (src/copier/config/user_data.py:233-246):
mappings render both key and value; list entries render element-wise, with
two-element pairs rendered componentwise. -/
def render_choices (env : QEnv) (ctx : List (String × Value)) : Value → Value
  | .dict es =>
    .dict (es.map fun kv => (env.renderTpl ctx kv.1, render_value env ctx kv.2))
  | .list xs =>
    .list (xs.map fun c =>
      match c with
      | .list [a, b] => .list [render_value env ctx a, render_value env ctx b]
      | other => render_value env ctx other)
  | other => other

mutual

/-- Python `==` on the modeled values: structural, with the numeric
identifications `True == 1`, `False == 0` (float/int cross-type equality
and dict order-insensitivity are outside the modeled domain). -/
def pyEq : Value → Value → Bool
  | .null, .null => true
  | .bool a, .bool b => a == b
  | .bool a, .int n => if a then n == 1 else n == 0
  | .int n, .bool a => if a then n == 1 else n == 0
  | .int a, .int b => a == b
  | .float a, .float b => a == b
  | .str a, .str b => a == b
  | .list a, .list b => pyEqList a b
  | .dict a, .dict b => pyEqEntries a b
  | .pyobj a, .pyobj b => a == b
  | _, _ => false

def pyEqList : List Value → List Value → Bool
  | [], [] => true
  | a :: as, b :: bs => pyEq a b && pyEqList as bs
  | _, _ => false

def pyEqEntries : List (String × Value) → List (String × Value) → Bool
  | [], [] => true
  | (k1, v1) :: as, (k2, v2) :: bs => k1 == k2 && pyEq v1 v2 && pyEqEntries as bs
  | _, _ => false

end

/-- The mutable state of the `query_user_data` loop: the `result` mapping
(what `Worker.answers` installs as the user layer) and the computed
`defaults`. -/
structure QState where
  result : List (String × Value)
  defaults : List (String × Value)

/-- The live render context
`ChainMap(result, forced_answers_data, defaults, DEFAULT_DATA)`, flattened
higher-precedence-first (the render oracle reads the first match). -/
def qctx (env : QEnv) (forced : List (String × Value)) (st : QState) :
    List (String × Value) :=
  st.result ++ forced ++ st.defaults ++ env.defaultData

/-- `details.get(k, fallback)`: key-presence based, like the Python dict. -/
def lookupD (details : List (String × Value)) (k : String) (fallback : Value) :
    Value :=
  (details.lookup k).getD fallback

/-- The recording tail of the loop body:
`if answer != details.get("default", default): result[question] =
cast_answer_type(answer, type_fn)` (src/copier/config/user_data.py:311-312),
returning the new state together with the resolved answer and type. -/
def recordAnswer (env : QEnv) (question : String)
    (details : List (String × Value)) (st1 : QState) (answer defaultV : Value)
    (tf : QType) : Except PyErr (QState × Value × QType) :=
  if pyEq answer (lookupD details "default" defaultV) then
    .ok (st1, answer, tf)
  else
    match cast_answer_type env tf answer with
    | .error e => .error e
    | .ok ca =>
      .ok ({ st1 with result := dictInsert st1.result question ca }, answer, tf)

/-- Embedding of one iteration of the `for question, details in
questions_data.items()` loop of `query_user_data`
(src/copier/config/user_data.py:279-313), additionally returning the
resolved `answer` and the looked-up type (which the loop itself discards):
render the `type` name and look it up; render and cast the `default`,
installing it in the `defaults` layer; take a forced answer (never asking)
or the last answer, falling back to the rendered default; ask interactively
when permitted; and record `cast_answer_type(answer)` in `result` iff
`answer != details.get("default", default)`. -/
def resolveQuestionFull (env : QEnv) (lastAnswers forced : List (String × Value))
    (askUser : Bool) (question : String) (details : List (String × Value))
    (st : QState) : Except PyErr (QState × Value × QType) :=
  let typeName :=
    render_value env (qctx env forced st) (lookupD details "type" (Value.str "yaml"))
  match qtypeOfName typeName with
  | none => .error .invalidType
  | some tf =>
    match cast_answer_type env tf
        (render_value env (qctx env forced st) (lookupD details "default" Value.null)) with
    | .error e => .error e
    | .ok defaultV =>
      let st1 : QState :=
        { st with defaults := dictInsert st.defaults question defaultV }
      match forced.lookup question with
      | some answer =>
        recordAnswer env question details st1 answer defaultV tf
      | none =>
        let answer0 := (lastAnswers.lookup question).getD defaultV
        let answer :=
          if askUser then
            env.askFn question tf
              (truthy (lookupD details "secret" (Value.bool false)))
              (render_value env (qctx env forced st1)
                (lookupD details "placeholder" Value.null))
              answer0
              (render_choices env (qctx env forced st1)
                (lookupD details "choices" Value.null))
              (render_value env (qctx env forced st1)
                (lookupD details "help" Value.null))
          else answer0
        recordAnswer env question details st1 answer defaultV tf

/-- One loop iteration as `query_user_data` consumes it (state only). -/
def resolveQuestion (env : QEnv) (lastAnswers forced : List (String × Value))
    (askUser : Bool) (question : String) (details : List (String × Value))
    (st : QState) : Except PyErr QState :=
  (resolveQuestionFull env lastAnswers forced askUser question details st).map (·.1)

/-- Embedding of `query_user_data` (src/copier/config/user_data.py:249-313):
fold the per-question step over the declared questions (whose values are
mappings after `filter_config` promotion) and return the `result` layer. -/
def query_user_data (env : QEnv)
    (questionsData : List (String × List (String × Value)))
    (lastAnswers forced : List (String × Value)) (askUser : Bool) :
    Except PyErr (List (String × Value)) := do
  let st ← questionsData.foldlM
    (fun st q => resolveQuestion env lastAnswers forced askUser q.1 q.2 st)
    ({ result := [], defaults := [] } : QState)
  return st.result

theorem dictInsert_cons_ne {α : Type} (hd : String × α) (tl : List (String × α))
    (k : String) (v : α) (hh : (hd.1 == k) = false) :
    dictInsert (hd :: tl) k v = hd :: dictInsert tl k v := by
  unfold dictInsert
  rw [List.any_cons, hh]
  have hne : hd.1 ≠ k := beq_eq_false_iff_ne.mp hh
  by_cases h2 : tl.any (fun p => p.1 == k) = true
  · simp [h2, hh, hne]
  · simp [h2, hh]

theorem lookup_dictInsert_self {α : Type} (d : List (String × α)) (k : String)
    (v : α) : (dictInsert d k v).lookup k = some v := by
  induction d with
  | nil => simp [dictInsert, List.lookup]
  | cons hd tl ih =>
    by_cases hh : (hd.1 == k) = true
    · simp only [dictInsert, List.any_cons, hh, Bool.true_or, if_pos, List.map_cons]
      simp [List.lookup]
    · have hh' : (hd.1 == k) = false := by
        simpa using hh
      rw [dictInsert_cons_ne hd tl k v hh']
      have hk : (k == hd.1) = false := by
        refine beq_eq_false_iff_ne.mpr ?_
        intro hc
        exact (beq_eq_false_iff_ne.mp hh') hc.symm
      simp [List.lookup, hk, ih]

/-- **C9.** During question resolution the resolved answer is recorded in
the `result` (user) layer iff it differs — under Python `!=` — from the
question's *raw* `default` field as declared (not from the rendered,
cast default `defaultV`); when recorded, the stored value is
`cast_answer_type(answer)`.  In particular a user-entered value equal to
the rendered default but different from the raw default is recorded. -/
theorem raw_default_recording (env : QEnv)
    (lastAnswers forced : List (String × Value)) (askUser : Bool)
    (question : String) (details : List (String × Value)) (st st' : QState)
    (a ca rawD : Value) (tf : QType)
    (hfresh : st.result.lookup question = none)
    (hdecl : details.lookup "default" = some rawD)
    (hrun : resolveQuestionFull env lastAnswers forced askUser question details st
        = Except.ok (st', a, tf))
    (hcast : cast_answer_type env tf a = Except.ok ca) :
    st'.result.lookup question = if pyEq a rawD then none else some ca := by
  have hraw : ∀ dv : Value, lookupD details "default" dv = rawD := by
    intro dv
    simp [lookupD, hdecl]
  have main : ∀ (st1 : QState) (answer dv : Value) (tf0 : QType),
      st1.result.lookup question = none →
      recordAnswer env question details st1 answer dv tf0
        = Except.ok (st', a, tf) →
      st'.result.lookup question = if pyEq a rawD then none else some ca := by
    intro st1 answer dv tf0 hfresh1 hrec
    unfold recordAnswer at hrec
    rw [hraw dv] at hrec
    by_cases hg : pyEq answer rawD = true
    · rw [if_pos hg] at hrec
      simp only [Except.ok.injEq, Prod.mk.injEq] at hrec
      obtain ⟨h1, h2, h3⟩ := hrec
      rw [← h1, hfresh1, ← h2, hg]
      simp
    · rw [if_neg hg] at hrec
      cases hc1 : cast_answer_type env tf0 answer with
      | error e =>
        rw [hc1] at hrec
        cases hrec
      | ok ca' =>
        rw [hc1] at hrec
        simp only [Except.ok.injEq, Prod.mk.injEq] at hrec
        obtain ⟨h1, h2, h3⟩ := hrec
        have hg' : pyEq answer rawD = false := by
          simpa using hg
        rw [h3] at hc1
        rw [← h2] at hcast
        rw [hcast] at hc1
        cases hc1
        rw [← h1]
        simp only [lookup_dictInsert_self]
        rw [← h2, hg']
        simp
  simp only [resolveQuestionFull] at hrun
  cases hty : qtypeOfName (render_value env (qctx env forced st)
      (lookupD details "type" (Value.str "yaml"))) with
  | none =>
    rw [hty] at hrun
    cases hrun
  | some tf0 =>
    rw [hty] at hrun
    dsimp only at hrun
    cases hc0 : cast_answer_type env tf0 (render_value env (qctx env forced st)
        (lookupD details "default" Value.null)) with
    | error e =>
      rw [hc0] at hrun
      cases hrun
    | ok defaultV =>
      rw [hc0] at hrun
      dsimp only at hrun
      cases hforced : forced.lookup question with
      | some av =>
        rw [hforced] at hrun
        dsimp only at hrun
        exact main ⟨st.result, dictInsert st.defaults question defaultV⟩
          av defaultV tf0 hfresh hrun
      | none =>
        rw [hforced] at hrun
        dsimp only at hrun
        exact main ⟨st.result, dictInsert st.defaults question defaultV⟩
          _ defaultV tf0 hfresh hrun

/-- Oracle environment for the C9 witness: the engine renders `[[x]]` to
`X`, and the interactive user types `X`. -/
def qEnvW : QEnv where
  renderTpl := fun _ s => if s = "[[x]]" then "X" else s
  jsonLoads := fun _ => .error .valueError
  yamlSafeLoad := fun s => .ok (.str s)
  floatConv := fun _ => .error .typeError
  strFallback := fun _ => ""
  askFn := fun _ _ _ _ _ _ _ => Value.str "X"
  defaultData := []

/-- A `str` question whose raw default is the template string `[[x]]`. -/
def detailsW : List (String × Value) :=
  [("type", Value.str "str"), ("default", Value.str "[[x]]")]

/-- Witness for C9: the user enters `X`, which equals the *rendered*
default but differs from the raw default `[[x]]` — and it is recorded in
the user result layer. -/
theorem raw_default_recording_witness :
    (⟨[("name", Value.str "X")], [("name", Value.str "X")]⟩
        : QState).result.lookup "name"
      = if pyEq (Value.str "X") (Value.str "[[x]]") then none
        else some (Value.str "X") :=
  raw_default_recording qEnvW [] [] true "name" detailsW ⟨[], []⟩
    ⟨[("name", Value.str "X")], [("name", Value.str "X")]⟩
    (Value.str "X") (Value.str "X") (Value.str "[[x]]") QType.str
    rfl rfl rfl rfl

end Voodoo
